import Mathlib

/-!
# Verification of the Grommet provider's theme / responsive resolution engine

This file gives a shallow embedding of `src/js/components/Grommet/Grommet.js`:
the theme composer (deep merge, menu-drop alignment special case, dark-mode
resolution from the resolved background color), the device classifier built
from the two user-agent regexes, the responsive fallback chain, the message
composer, the browser-environment guards, and the module-level default
`options` object.  Utilities imported from outside the file under
verification (`deepMerge`, `normalizeColor`, `backgroundIsDark`,
`getDeviceBreakpoint`, the base theme, the default message table and the
`format` helper of the MessageContext) are modelled from the specification,
as marked on each definition.
-/

namespace GrommetSpec

/-! ## JavaScript value helpers -/

/-- JS `a || b` for an optional string `a` (absent and `""` are falsy). -/
def jsOrStr (a : Option String) (b : String) : String :=
  match a with
  | some s => if s == "" then b else s
  | none => b

/-- JS `a || b` for two optional strings (absent and `""` are falsy). -/
def jsOrO (a b : Option String) : Option String :=
  match a with
  | some s => if s == "" then b else some s
  | none => b

/-- JS truthiness of an optional string. -/
def jsTruthyOptStr (o : Option String) : Bool :=
  match o with
  | some s => s != ""
  | none => false

/-- Parts of a pre-tokenized message template: literal text and named
placeholders (the JS source keeps templates as plain strings with brace
delimited holes; the embedding tokenizes them). -/
inductive TPart where
  | txt (s : String)
  | hole (name : String)
deriving DecidableEq, Repr

/-- Untyped JS-like values, used for the menu-drop alignment objects and for
message tables. -/
inductive JVal where
  | str (s : String)
  | tmpl (parts : List TPart)
  | num (n : Int)
  | boolean (b : Bool)
  | null
  | arr (elems : List JVal)
  | obj (fields : List (String × JVal))
deriving Repr

/-- JS truthiness of an untyped value. -/
def jvalTruthy : JVal → Bool
  | .str s => s != ""
  | .tmpl _ => true
  | .num n => n != 0
  | .boolean b => b
  | .null => false
  | .arr _ => true
  | .obj _ => true

mutual

/-- Modelled from the spec: the `deepMerge` util.  Recursively combines two
nested mapping structures: where both sides hold objects the merge recurses,
otherwise the override's value wins outright (arrays are atomic).  Override
keys are folded into the base's fields left to right, new keys appended. -/
def deepMergeJ : JVal → JVal → JVal
  | .obj bf, .obj ov => .obj (applyOverrides bf ov)
  | _, o => o
termination_by b o => (2 * sizeOf o, 0)

/-- Fold every override field into the base field list. -/
def applyOverrides : List (String × JVal) → List (String × JVal) → List (String × JVal)
  | bf, [] => bf
  | bf, (k, w) :: rest => applyOverrides (setKey bf k w) rest
termination_by bf ov => (2 * sizeOf ov + 1, 0)

/-- Merge one override entry into a field list (recursing into the value when
the key is already present, appending otherwise). -/
def setKey : List (String × JVal) → String → JVal → List (String × JVal)
  | [], k, w => [(k, w)]
  | (k2, v) :: bs, k, w =>
    if k == k2 then (k2, deepMergeJ v w) :: bs else (k2, v) :: setKey bs k w
termination_by bs k w => (2 * sizeOf w + 1, sizeOf bs)

end

/-! ## The user-agent regexes of `deviceResponsive` -/

/-- Does `s` start with `pat`? -/
def startsW : List Char → List Char → Bool
  | [], _ => true
  | _ :: _, [] => false
  | p :: ps, c :: cs => p == c && startsW ps cs

/-- Does `s` contain `pat` as a contiguous substring? -/
def containsL (pat : List Char) : List Char → Bool
  | [] => pat.isEmpty
  | c :: cs => startsW pat (c :: cs) || containsL pat cs

/-- Lower-cased character list of a string (for the `/i` regex flag). -/
def lowerChars (s : String) : List Char :=
  s.data.map Char.toLower

/-- The `android(?!.*mobile)` alternative of the tablet regex, on an already
lower-cased list: some occurrence of `android` with no later occurrence of
`mobile` (the dot of the lookahead is modelled as matching every character;
user-agent strings contain no newlines). -/
def androidNoMobile : List Char → Bool
  | [] => false
  | c :: cs =>
    (startsW ('a' :: 'n' :: 'd' :: 'r' :: 'o' :: 'i' :: 'd' :: []) (c :: cs)
      && !containsL ('m' :: 'o' :: 'b' :: 'i' :: 'l' :: 'e' :: []) (List.drop 7 (c :: cs)))
    || androidNoMobile cs

/-- `/(tablet|ipad|playbook|silk)|(android(?!.*mobile))/i.test(userAgent)` -/
def tabletRegexTest (ua : String) : Bool :=
  containsL ('t' :: 'a' :: 'b' :: 'l' :: 'e' :: 't' :: []) (lowerChars ua)
  || containsL ('i' :: 'p' :: 'a' :: 'd' :: []) (lowerChars ua)
  || containsL ('p' :: 'l' :: 'a' :: 'y' :: 'b' :: 'o' :: 'o' :: 'k' :: []) (lowerChars ua)
  || containsL ('s' :: 'i' :: 'l' :: 'k' :: []) (lowerChars ua)
  || androidNoMobile (lowerChars ua)

/-- `/Mobile|iPhone|Android/.test(userAgent)` (case sensitive). -/
def phoneRegexTest (ua : String) : Bool :=
  containsL ("Mobile".data) ua.data
  || containsL ("iPhone".data) ua.data
  || containsL ("Android".data) ua.data

/-- The three coarse device classes. -/
inductive Device where
  | tablet
  | phone
  | computer
deriving DecidableEq, Repr

/-- Device-class name as used for the breakpoint table lookup. -/
def deviceName : Device → String
  | .tablet => "tablet"
  | .phone => "phone"
  | .computer => "computer"

/-- The classification contract as the spec states it: first match wins over
the three buckets, empty input is unclassified. -/
def classify (ua : String) : Option Device :=
  if ua == "" then none
  else if tabletRegexTest ua then some .tablet
  else if phoneRegexTest ua then some .phone
  else some .computer

/-! ## The typed theme model -/

/-- A theme color entry: either a single literal/token string, or a pair of
dark/light variants (as the base theme's `background` color is). -/
inductive ColorSpec where
  | lit (s : String)
  | variants (darkVariant lightVariant : String)
deriving DecidableEq, Repr

/-- JS truthiness of a color value (strings are falsy when empty, variant
objects are always truthy). -/
def colorTruthy : ColorSpec → Bool
  | .lit s => s != ""
  | .variants _ _ => true

/-- JS `a || b` for optional color values. -/
def jsOrColor (a b : Option ColorSpec) : Option ColorSpec :=
  match a with
  | some c => if colorTruthy c then some c else b
  | none => b

/-- `theme.global`: the color table and the device-class breakpoint table. -/
structure ThemeGlobal where
  colors : List (String × ColorSpec)
  deviceBreakpoints : List (String × String)
deriving DecidableEq, Repr

/-- `theme.menu.drop`. -/
structure MenuDrop where
  align : JVal
deriving Repr

/-- `theme.menu`. -/
structure Menu where
  drop : MenuDrop
deriving Repr

/-- The slice of the theme tree that the provider reads or writes.  `dark`,
`baseBackground`, `background` and `dir` are absent (falsy / `none`) on the
base theme and are filled in by the composer. -/
structure Theme where
  global : ThemeGlobal
  menu : Menu
  defaultMode : String
  dark : Bool
  baseBackground : Option ColorSpec
  background : Option ColorSpec
  dir : Option String
deriving Repr

/-- A theme override's `menu.drop` fragment. -/
structure MenuDropProp where
  align : Option JVal
deriving Repr

/-- A theme override's `menu` fragment. -/
structure MenuProp where
  drop : Option MenuDropProp
deriving Repr

/-- A theme override's `global` fragment. -/
structure ThemeGlobalProp where
  colors : Option (List (String × ColorSpec))
  deviceBreakpoints : Option (List (String × String))
deriving Repr

/-- The `theme` prop: a partial theme override. -/
structure ThemeProp where
  global : Option ThemeGlobalProp
  menu : Option MenuProp
  defaultMode : Option String
deriving Repr

/-- Replace one entry of an association list, appending when absent (leaf
values of the generic deep merge are replaced, not merged). -/
def setKeyA {α : Type} : List (String × α) → String → α → List (String × α)
  | [], k, w => [(k, w)]
  | (k2, v) :: bs, k, w =>
    if k == k2 then (k2, w) :: bs else (k2, v) :: setKeyA bs k w

/-- Fold override entries into a base association list, override wins per key. -/
def overrideAssoc {α : Type} (base : List (String × α)) : List (String × α) → List (String × α)
  | [] => base
  | (k, w) :: rest => overrideAssoc (setKeyA base k w) rest

/-- Modelled from the spec: `deepMerge` specialized to the `global` slice. -/
def mergeGlobal (b : ThemeGlobal) (o : Option ThemeGlobalProp) : ThemeGlobal :=
  match o with
  | none => b
  | some gp =>
    ⟨match gp.colors with
     | none => b.colors
     | some cs => overrideAssoc b.colors cs,
     match gp.deviceBreakpoints with
     | none => b.deviceBreakpoints
     | some ds => overrideAssoc b.deviceBreakpoints ds⟩

/-- Modelled from the spec: `deepMerge` specialized to the `menu` slice (the
alignment objects themselves merge with the generic untyped rule). -/
def mergeMenu (b : Menu) (o : Option MenuProp) : Menu :=
  match o with
  | none => b
  | some mp =>
    match mp.drop with
    | none => b
    | some dp =>
      match dp.align with
      | none => b
      | some a => ⟨⟨deepMergeJ b.drop.align a⟩⟩

/-- Modelled from the spec: `deepMerge(baseTheme, themeProp || \x7b\x7d)`,
specialized to the typed theme slice. -/
def deepMergeTheme (b : Theme) (o : Option ThemeProp) : Theme :=
  match o with
  | none => b
  | some tp =>
    ⟨mergeGlobal b.global tp.global,
     mergeMenu b.menu tp.menu,
     match tp.defaultMode with
     | none => b.defaultMode
     | some m => m,
     b.dark, b.baseBackground, b.background, b.dir⟩

/-- Lines 81-89: when the override supplies a (truthy) `menu.drop.align`, the
merged value is deleted and replaced by the override's value verbatim. -/
def applyMenuOverride (t : Theme) (themeProp : Option ThemeProp) : Theme :=
  match themeProp with
  | none => t
  | some tp =>
    match tp.menu with
    | none => t
    | some m =>
      match m.drop with
      | none => t
      | some d =>
        match d.align with
        | none => t
        | some a =>
          if jvalTruthy a then
            ⟨t.global, ⟨⟨a⟩⟩, t.defaultMode, t.dark, t.baseBackground, t.background, t.dir⟩
          else t

/-- Modelled from the spec: the imported base theme (`../../themes` is not
part of the source under verification).  Per the spec it declares global
colors including a default background with dark/light variants, the
device-class breakpoint aliases, a default menu-drop alignment and a default
mode. -/
def baseTheme : Theme :=
  ⟨⟨[("background", .variants "#111111" "#FFFFFF"), ("brand", .lit "#7D4CDB")],
    [("phone", "small"), ("tablet", "medium"), ("computer", "large")]⟩,
   ⟨⟨.obj [("top", .str "top"), ("left", .str "left")]⟩⟩,
   "light", false, none, none, none⟩

/-- Modelled from the spec: the `getDeviceBreakpoint` util resolves a device
class to the theme-defined breakpoint name via the theme's table. -/
def getDeviceBreakpoint (device : String) (theme : Theme) : Option String :=
  theme.global.deviceBreakpoints.lookup device

/-- Lines 37-56: map a user-agent string to a device breakpoint, first match
wins; falsy (absent or empty) user agents are unclassified. -/
def deviceResponsive (userAgent : Option String) (theme : Theme) : Option String :=
  match userAgent with
  | none => none
  | some ua =>
    if ua == "" then none
    else if tabletRegexTest ua then getDeviceBreakpoint "tablet" theme
    else if phoneRegexTest ua then getDeviceBreakpoint "phone" theme
    else getDeviceBreakpoint "computer" theme

/-- Lines 139-142: `stateResponsive || deviceResponsive(userAgent, theme) ||
theme.global.deviceBreakpoints.tablet`. -/
def responsiveValue (stateResponsive userAgent : Option String) (theme : Theme) : Option String :=
  jsOrO (jsOrO stateResponsive (deviceResponsive userAgent theme))
    (theme.global.deviceBreakpoints.lookup "tablet")

/-! ## Color resolution and the theme composer -/

/-- Value of one hexadecimal digit. -/
def hexDigitVal (c : Char) : Option Nat :=
  if '0' ≤ c ∧ c ≤ '9' then some (c.toNat - 48)
  else if 'a' ≤ c ∧ c ≤ 'f' then some (c.toNat - 87)
  else if 'A' ≤ c ∧ c ≤ 'F' then some (c.toNat - 55)
  else none

/-- Parse a `#rrggbb` color literal into its three channels. -/
def parseHex6 (s : String) : Option (Nat × Nat × Nat) :=
  match s.data with
  | '#' :: c1 :: c2 :: c3 :: c4 :: c5 :: c6 :: [] =>
    match hexDigitVal c1, hexDigitVal c2, hexDigitVal c3,
        hexDigitVal c4, hexDigitVal c5, hexDigitVal c6 with
    | some v1, some v2, some v3, some v4, some v5, some v6 =>
      some (v1 * 16 + v2, v3 * 16 + v4, v5 * 16 + v6)
    | _, _, _, _, _, _ => none
  | _ => none

/-- Perceptual-luminance darkness test against a fixed threshold. -/
def luminanceDark (r g bl : Nat) : Bool :=
  r * 299 + g * 587 + bl * 114 < 125000

/-- Modelled from the spec: the `normalizeColor` util resolves a theme-level
color alias or literal to a concrete color string; dark/light variant pairs
are resolved through the theme's current `dark` flag. -/
def normalizeColor (c : ColorSpec) (theme : Theme) : String :=
  match c with
  | .variants d l => if theme.dark then d else l
  | .lit s =>
    match theme.global.colors.lookup s with
    | some (.lit s2) => s2
    | some (.variants d l) => if theme.dark then d else l
    | none => s

/-- `normalizeColor` lifted to an optional color (JS `undefined` flows
through). -/
def normalizeColorOpt (c : Option ColorSpec) (theme : Theme) : Option String :=
  match c with
  | some c0 => some (normalizeColor c0 theme)
  | none => none

/-- Modelled from the spec: the `backgroundIsDark` util classifies a resolved
color as dark when its luminance falls below the threshold, and falls back to
the theme's current `dark` flag when the color is not classifiable. -/
def backgroundIsDark (color : Option String) (theme : Theme) : Bool :=
  match color with
  | some s =>
    match parseHex6 s with
    | some rgb => luminanceDark rgb.1 rgb.2.1 rgb.2.2
    | none => theme.dark
  | none => theme.dark

/-- Line 76 plus the lines 81-89 special case: the merged theme. -/
def mergedTheme (base : Theme) (themeProp : Option ThemeProp) : Theme :=
  applyMenuOverride (deepMergeTheme base themeProp) themeProp

/-- `nextTheme.global.colors.background` (line 90-92). -/
def themeBackgroundOf (t : Theme) : Option ColorSpec :=
  t.global.colors.lookup "background"

/-- Replace only the `dark` field of a theme. -/
def setDark (t : Theme) (b : Bool) : Theme :=
  ⟨t.global, t.menu, t.defaultMode, b, t.baseBackground, t.background, t.dir⟩

/-- Line 94: the tentative dark flag,
`(themeMode || nextTheme.defaultMode) === 'dark'`. -/
def tentativeTheme (base : Theme) (themeProp : Option ThemeProp) (themeMode : Option String) : Theme :=
  setDark (mergedTheme base themeProp)
    (jsOrStr themeMode (mergedTheme base themeProp).defaultMode == "dark")

/-- Line 95: `normalizeColor(background || themeBackground, nextTheme)`, with
`nextTheme` carrying the tentative dark flag. -/
def resolvedBackgroundColor (base : Theme) (themeProp : Option ThemeProp)
    (background : Option ColorSpec) (themeMode : Option String) : Option String :=
  normalizeColorOpt
    (jsOrColor background (themeBackgroundOf (mergedTheme base themeProp)))
    (tentativeTheme base themeProp themeMode)

/-- Lines 75-107: the `theme` useMemo body — merge, menu-align special case,
tentative dark from the mode, final dark from the resolved background color,
`baseBackground` / `background` recording, and the conditional `dir`. -/
def composeTheme (base : Theme) (themeProp : Option ThemeProp)
    (background : Option ColorSpec) (dir themeMode : Option String) : Theme :=
  let t2 := tentativeTheme base themeProp themeMode
  let t3 := setDark t2
    (backgroundIsDark (resolvedBackgroundColor base themeProp background themeMode) t2)
  let effBg := jsOrColor background (themeBackgroundOf (mergedTheme base themeProp))
  let t4 : Theme := ⟨t3.global, t3.menu, t3.defaultMode, t3.dark, effBg, effBg, t3.dir⟩
  if jsTruthyOptStr dir then
    ⟨t4.global, t4.menu, t4.defaultMode, t4.dark, t4.baseBackground, t4.background, dir⟩
  else t4

/-! ## The message composer -/

/-- Modelled from the spec: the default message table
(`../../languages/default.json` is not part of the source under
verification); a nested table of pre-tokenized templates. -/
def defaultMessages : JVal :=
  .obj [("calendar", .obj [("previousMove", .tmpl [.txt "Moved to ", .hole "date"])]),
        ("menu", .obj [("openMenu", .tmpl [.txt "Open Menu"]),
                       ("closeMenu", .tmpl [.txt "Close Menu"])]),
        ("fileInput", .obj [("browse", .tmpl [.txt "browse"])])]

/-- Substitute one placeholder from the options' value table. -/
def renderHole (values : List (String × String)) (name : String) : String :=
  match values.lookup name with
  | some v => v
  | none => ""

/-- Render a tokenized template with placeholder substitution. -/
def renderTemplate (parts : List TPart) (values : List (String × String)) : String :=
  match parts with
  | [] => ""
  | .txt s :: rest => s ++ renderTemplate rest values
  | .hole n :: rest => renderHole values n ++ renderTemplate rest values

/-- The options handed to a message `format` call: a dotted message id and
the placeholder values. -/
structure FormatOptions where
  id : String
  values : List (String × String)

/-- Walk a nested message table along a key path. -/
def lookupPath : JVal → List String → Option JVal
  | v, [] => some v
  | .obj fs, k :: ks =>
    (match fs.lookup k with
     | some v => lookupPath v ks
     | none => none)
  | _, _ :: _ => none

/-- Modelled from the spec: the `format` helper of the MessageContext —
message lookup by (dotted) key in a table, placeholder substitution from the
options. -/
def format (opts : FormatOptions) (messages : JVal) : Option String :=
  match lookupPath messages (opts.id.splitOn ".") with
  | some (.tmpl parts) => some (renderTemplate parts opts.values)
  | some (.str s) => some s
  | _ => none

/-- The `messages` prop: an optional message table override and an optional
caller-supplied format function (returning `none` models returning JS
`undefined`). -/
structure MessagesProp where
  messages : Option JVal
  format : Option (FormatOptions → Option String)

/-- Line 112-115: `deepMerge(defaultMessages, messagesProp?.messages || \x7b\x7d)`. -/
def mergedMessages (messagesProp : Option MessagesProp) : JVal :=
  deepMergeJ defaultMessages
    (match messagesProp with
     | some mp =>
       match mp.messages with
       | some m => if jvalTruthy m then m else .obj []
       | none => .obj []
     | none => .obj [])

/-- Lines 118-123: the composed format function — a defined result of the
caller-supplied format wins, otherwise format against the merged table. -/
def composedFormat (messagesProp : Option MessagesProp) (opts : FormatOptions) : Option String :=
  let message : Option String :=
    match messagesProp with
    | some mp =>
      match mp.format with
      | some f => f opts
      | none => none
    | none => none
  match message with
  | some m => some m
  | none => format opts (mergedMessages messagesProp)

/-! ## The host environment (browser globals) -/

/-- The global `document` when present: the identity of `document.body` and
its `clientWidth`. -/
structure BrowserDocument where
  bodyId : Nat
  bodyClientWidth : Nat
deriving DecidableEq, Repr

/-- The global `window` when present. -/
structure BrowserWindow where
  windowId : Nat
deriving DecidableEq, Repr

/-- The host environment: browser globals are absent in non-browser
execution.  Reading an absent global throws (modelled with `Except`); a
`typeof` test never throws. -/
structure Env where
  document : Option BrowserDocument
  window : Option BrowserWindow
deriving DecidableEq, Repr

/-- `typeof document === 'object'` — total, never throws. -/
def documentIsObject (env : Env) : Bool :=
  env.document.isSome

/-- Line 64: the `containerTarget` default,
`typeof document === 'object' ? document.body : undefined`; the `document`
access in the true branch is reached only under the `typeof` guard. -/
def containerTargetDefault (env : Env) : Except String (Option Nat) :=
  if documentIsObject env then
    match env.document with
    | some d => .ok (some d.bodyId)
    | none => .error "document is not defined"
  else .ok none

/-- Lines 131-132: `window.addEventListener('resize', onResize)` — a direct,
unguarded access to the global `window`. -/
def registerResizeListener (env : Env) : Except String Unit :=
  match env.window with
  | some _ => .ok ()
  | none => .error "window is not defined"

/-- Line 128: `document.body.clientWidth` — a direct, unguarded access to the
global `document`. -/
def measureBodyWidth (env : Env) : Except String Nat :=
  match env.document with
  | some d => .ok d.bodyClientWidth
  | none => .error "document is not defined"

/-! ## The module-level default `options` object -/

/-- Object identities handed out by the module: `nextAddr` is the next fresh
identity, `defaultOptionsAddr` the identity of the module-level constant
`defaultOptions` (line 58: `const defaultOptions = \x7b\x7d;`), allocated
once at module evaluation. -/
structure ModuleState where
  nextAddr : Nat
  defaultOptionsAddr : Nat
deriving DecidableEq, Repr

/-- Module evaluation: allocate the empty `defaultOptions` object once. -/
def initModule (firstFree : Nat) : ModuleState :=
  ⟨firstFree + 1, firstFree⟩

/-- Line 66: the destructuring default `options = defaultOptions`, evaluated
per render: an absent prop selects the module constant and allocates
nothing. -/
def renderOptions (ms : ModuleState) (optionsProp : Option Nat) : ModuleState × Nat :=
  match optionsProp with
  | some a => (ms, a)
  | none => (ms, ms.defaultOptionsAddr)

/-! ## The store-level model of the theme composition

The claim that composition never mutates its inputs is about object
identity, so this second embedding of lines 75-107 runs the same steps over
an explicit store of object nodes: the deep merge allocates the merged
result as entirely fresh nodes (the spec's deepMerge "returns a new
structure" and "must not mutate either input"), and every later in-place
step (`delete` / field assignments) is a store update. -/

/-- A store address. -/
abbrev Addr := Nat

/-- A field value in the store: a primitive, a reference to another node, or
JS `undefined`. -/
inductive HVal where
  | prim (s : String)
  | ref (a : Addr)
  | undef
deriving DecidableEq, Repr

/-- An object node: its named fields. -/
abbrev HNode := List (String × HVal)

/-- The object store; an address is an index into `nodes`. -/
structure Heap where
  nodes : List HNode
deriving DecidableEq, Repr

/-- Node at an address (absent addresses read as empty). -/
def Heap.get (h : Heap) (a : Addr) : HNode :=
  h.nodes.getD a []

/-- Number of allocated nodes. -/
def Heap.size (h : Heap) : Nat :=
  h.nodes.length

/-- Overwrite one node. -/
def Heap.set (h : Heap) (a : Addr) (n : HNode) : Heap :=
  ⟨h.nodes.set a n⟩

/-- Read a field of a node. -/
def getFieldH (h : Heap) (a : Addr) (k : String) : Option HVal :=
  (h.get a).lookup k

/-- Remove a field of a node (the JS `delete`). -/
def removeKey (n : HNode) (k : String) : HNode :=
  n.filter (fun kv => kv.1 != k)

/-- `delete obj[k]; obj[k] = v` — remove then append the field. -/
def setFieldH (h : Heap) (a : Addr) (k : String) (v : HVal) : Heap :=
  h.set a (removeKey (h.get a) k ++ [(k, v)])

/-- A value tree read out of (or to be allocated into) the store. -/
inductive HTree where
  | prim (s : String)
  | undef
  | node (fields : List (String × HTree))
deriving Repr

mutual

/-- Allocate a value tree into the store; every node is fresh. -/
def allocTree (h : Heap) : HTree → Heap × HVal
  | .prim s => (h, .prim s)
  | .undef => (h, .undef)
  | .node fs =>
    let p := allocFields h fs
    (⟨p.1.nodes ++ [p.2]⟩, .ref p.1.nodes.length)
termination_by t => sizeOf t

/-- Allocate the field values of a node left to right. -/
def allocFields (h : Heap) : List (String × HTree) → Heap × HNode
  | [] => (h, [])
  | (k, t) :: rest =>
    let p := allocTree h t
    let q := allocFields p.1 rest
    (q.1, (k, p.2) :: q.2)
termination_by fs => sizeOf fs

end

/-- Read the value graph under a store value as a tree, up to `fuel` levels
(acyclic object graphs are read exactly when `fuel` bounds their depth). -/
def readTree (h : Heap) : Nat → HVal → HTree
  | _, .prim s => .prim s
  | _, .undef => .undef
  | 0, .ref _ => .undef
  | fuel + 1, .ref a => .node ((h.get a).map (fun kv => (kv.1, readTree h fuel kv.2)))
termination_by fuel _ => fuel

mutual

/-- The generic deep merge on value trees (same rule as `deepMergeJ`). -/
def mergeTreeH : HTree → HTree → HTree
  | .node bf, .node ov => .node (applyOverridesH bf ov)
  | _, o => o
termination_by b o => (2 * sizeOf o, 0)

/-- Fold every override field into the base field list. -/
def applyOverridesH : List (String × HTree) → List (String × HTree) → List (String × HTree)
  | bf, [] => bf
  | bf, (k, w) :: rest => applyOverridesH (setKeyH bf k w) rest
termination_by bf ov => (2 * sizeOf ov + 1, 0)

/-- Merge one override entry into a field list. -/
def setKeyH : List (String × HTree) → String → HTree → List (String × HTree)
  | [], k, w => [(k, w)]
  | (k2, v) :: bs, k, w =>
    if k == k2 then (k2, mergeTreeH v w) :: bs else (k2, v) :: setKeyH bs k w
termination_by bs k w => (2 * sizeOf w + 1, sizeOf bs)

end

/-- The fields of the object at `a`, with each value read as a tree. -/
def readNodeTrees (h : Heap) (a : Addr) : List (String × HTree) :=
  (h.get a).map (fun kv => (kv.1, readTree h h.size kv.2))

/-- Modelled from the spec: `deepMerge(base, override)` at store level —
reads both object graphs, merges them, and allocates the merged result as
entirely fresh nodes, returning the fresh root. -/
def deepMergeH (h : Heap) (b o : Addr) : Heap × Addr :=
  let merged := applyOverridesH (readNodeTrees h b) (readNodeTrees h o)
  let p := allocFields h merged
  (⟨p.1.nodes ++ [p.2]⟩, p.1.size)

/-- JS truthiness of a store value. -/
def hvalTruthy : HVal → Bool
  | .prim s => s != ""
  | .ref _ => true
  | .undef => false

/-- Lines 81-86: does the override carry a truthy `menu.drop.align`? -/
def overrideAlignH (h : Heap) (o : Addr) : Option HVal :=
  match getFieldH h o "menu" with
  | some (.ref m) =>
    (match getFieldH h m "drop" with
     | some (.ref d) =>
       (match getFieldH h d "align" with
        | some v => if hvalTruthy v then some v else none
        | none => none)
     | _ => none)
  | _ => none

/-- Lines 87-88: `delete nextTheme.menu.drop.align;
nextTheme.menu.drop.align = themeProp.menu.drop.align` — a store update on
the merged theme's `menu.drop` node. -/
def applyAlignH (h : Heap) (r o : Addr) : Heap :=
  match overrideAlignH h o with
  | some av =>
    (match getFieldH h r "menu" with
     | some (.ref m) =>
       (match getFieldH h m "drop" with
        | some (.ref d) => setFieldH h d "align" av
        | _ => h)
     | _ => h)
  | none => h

/-- Read a primitive-valued field. -/
def getPrimField (h : Heap) (a : Addr) (k : String) : Option String :=
  match getFieldH h a k with
  | some (.prim s) => some s
  | _ => none

/-- The merged theme's `global.colors` node. -/
def colorsAddrH (h : Heap) (r : Addr) : Option Addr :=
  match getFieldH h r "global" with
  | some (.ref g) =>
    (match getFieldH h g "colors" with
     | some (.ref c) => some c
     | _ => none)
  | _ => none

/-- Lines 90-92: `nextTheme.global.colors.background`. -/
def themeBackgroundH (h : Heap) (r : Addr) : Option HVal :=
  match colorsAddrH h r with
  | some c => getFieldH h c "background"
  | none => none

/-- Modelled from the spec: `normalizeColor` at store level — named tokens
are looked up in the merged theme's colors, dark/light variant objects are
resolved through the current dark flag. -/
def normalizeColorH (h : Heap) (r : Addr) (v : Option HVal) (dark : Bool) : Option String :=
  match v with
  | some (.prim s) =>
    (match (match colorsAddrH h r with
            | some c => getFieldH h c s
            | none => none) with
     | some (.prim s2) => some s2
     | some (.ref a) => getPrimField h a (if dark then "dark" else "light")
     | some .undef => some s
     | none => some s)
  | some (.ref a) => getPrimField h a (if dark then "dark" else "light")
  | some .undef => none
  | none => none

/-- Modelled from the spec: `backgroundIsDark` on an already-resolved color
string, with the current dark flag as fallback. -/
def backgroundIsDarkH (color : Option String) (dark : Bool) : Bool :=
  match color with
  | some s =>
    match parseHex6 s with
    | some rgb => luminanceDark rgb.1 rgb.2.1 rgb.2.2
    | none => dark
  | none => dark

/-- A boolean as a stored primitive. -/
def boolPrim (b : Bool) : HVal :=
  .prim (if b then "true" else "false")

/-- Lines 75-107 at store level: merge into fresh nodes, then mutate only the
merged copy — the align special case, `dark` (twice), `baseBackground`,
`background` and the conditional `dir`.  Returns the final store and the
merged theme's root. -/
def composeThemeH (h : Heap) (baseA overA : Addr)
    (background dir themeMode : Option String) : Heap × Addr :=
  let p := deepMergeH h baseA overA
  let h1 := p.1
  let r := p.2
  let h2 := applyAlignH h1 r overA
  let dark1 := jsOrStr themeMode
    (match getPrimField h2 r "defaultMode" with
     | some s => s
     | none => "") == "dark"
  let h3 := setFieldH h2 r "dark" (boolPrim dark1)
  let themeBackground := themeBackgroundH h3 r
  let effBg := match background with
    | some s => if s == "" then themeBackground else some (.prim s)
    | none => themeBackground
  let color := normalizeColorH h3 r effBg dark1
  let dark2 := backgroundIsDarkH color dark1
  let h4 := setFieldH h3 r "dark" (boolPrim dark2)
  let bb := match effBg with
    | some v => v
    | none => .undef
  let h5 := setFieldH h4 r "baseBackground" bb
  let h6 := setFieldH h5 r "background" bb
  let h7 := match dir with
    | some ds => if ds == "" then h6 else setFieldH h6 r "dir" (.prim ds)
    | none => h6
  (h7, r)

/-- A store value that can only point at or above `lo`. -/
def valFresh (lo : Nat) (v : HVal) : Prop :=
  ∀ a : Addr, v = HVal.ref a → lo ≤ a

/-- A node whose field values can only point at or above `lo`. -/
def nodeFresh (lo : Nat) (n : HNode) : Prop :=
  ∀ kv ∈ n, valFresh lo kv.2

/-- Every node at or above `lo` points only at or above `lo`: navigating
inside the freshly allocated region never reaches a pre-existing address. -/
def regionFresh (lo : Nat) (h : Heap) : Prop :=
  ∀ i : Nat, lo ≤ i → nodeFresh lo (h.get i)

/-! ## Helper lemmas -/

/-- The final theme's `dark` flag is the background classification computed
over the tentative theme. -/
theorem composeTheme_dark (base : Theme) (tp : Option ThemeProp)
    (bg : Option ColorSpec) (dir mode : Option String) :
    (composeTheme base tp bg dir mode).dark
      = backgroundIsDark (resolvedBackgroundColor base tp bg mode)
          (tentativeTheme base tp mode) := by
  simp only [composeTheme]
  split <;> rfl

/-- The final theme's `menu` slice is the merged (and special-cased) one. -/
theorem composeTheme_menu (base : Theme) (tp : Option ThemeProp)
    (bg : Option ColorSpec) (dir mode : Option String) :
    (composeTheme base tp bg dir mode).menu = (mergedTheme base tp).menu := by
  simp only [composeTheme]
  split <;> rfl

/-- The final theme's `baseBackground` is `background || themeBackground`. -/
theorem composeTheme_baseBackground (base : Theme) (tp : Option ThemeProp)
    (bg : Option ColorSpec) (dir mode : Option String) :
    (composeTheme base tp bg dir mode).baseBackground
      = jsOrColor bg (themeBackgroundOf (mergedTheme base tp)) := by
  simp only [composeTheme]
  split <;> rfl

/-- The final theme's `background` equals its `baseBackground`. -/
theorem composeTheme_background (base : Theme) (tp : Option ThemeProp)
    (bg : Option ColorSpec) (dir mode : Option String) :
    (composeTheme base tp bg dir mode).background
      = (composeTheme base tp bg dir mode).baseBackground := by
  simp only [composeTheme]
  split <;> rfl

/-- A string that parses as a hex color is nonempty. -/
theorem parseHex6_nonempty {s : String} {x : Nat × Nat × Nat}
    (h : parseHex6 s = some x) : (s == "") = false := by
  cases hb : (s == "") with
  | false => rfl
  | true =>
    have hs : s = "" := by
      have := (beq_iff_eq (a := s) (b := "")).mp hb
      exact this
    rw [hs] at h
    have hnone : parseHex6 "" = none := rfl
    rw [hnone] at h
    cases h

/-! ## Claim theorems -/

/-- C2: device classification is decided by first-match precedence over
exactly three buckets — tablet signatures first, then the (case-sensitive)
mobile signatures, every other non-empty string is a computer, and an empty
or absent user agent is unclassified; witnessed on the spec's example user
agents. -/
theorem device_classification_buckets :
    (∀ (ua : String) (theme : Theme),
      deviceResponsive (some ua) theme
        = (match classify ua with
           | some d => getDeviceBreakpoint (deviceName d) theme
           | none => none))
    ∧ (∀ theme : Theme, deviceResponsive none theme = none)
    ∧ classify "Mozilla/5.0 (iPad; CPU OS 12_2 like Mac OS X) AppleWebKit/605.1.15"
        = some Device.tablet
    ∧ classify "Mozilla/5.0 (Linux; Android 10; Mobile; rv:68.0) Gecko/68.0 Firefox/68.0"
        = some Device.phone
    ∧ classify "Mozilla/5.0 (Windows NT 10.0; Win64; x64) AppleWebKit/537.36"
        = some Device.computer
    ∧ classify "" = none := by
  refine ⟨?_, ?_, ?_, ?_, ?_, ?_⟩
  · intro ua theme
    by_cases h0 : (ua == "") = true
    · simp [deviceResponsive, classify, h0]
    · by_cases h1 : tabletRegexTest ua = true
      · simp [deviceResponsive, classify, h0, h1, deviceName]
      · by_cases h2 : phoneRegexTest ua = true
        · simp [deviceResponsive, classify, h0, h1, h2, deviceName]
        · simp [deviceResponsive, classify, h0, h1, h2, deviceName]
  · intro theme
    rfl
  · decide
  · decide
  · decide
  · decide

/-- C3: the published responsive value prefers the state value whenever it is
set; only an unset state falls back to the user-agent classification, and
only an unclassified user agent falls back to the theme's tablet device
breakpoint. -/
theorem responsive_state_precedence :
    (∀ (s : String) (ua : Option String) (theme : Theme), (s == "") = false →
      responsiveValue (some s) ua theme = some s)
    ∧ (∀ (ua : Option String) (theme : Theme),
      responsiveValue none ua theme
        = jsOrO (deviceResponsive ua theme)
            (theme.global.deviceBreakpoints.lookup "tablet"))
    ∧ (∀ (ua : Option String) (theme : Theme), deviceResponsive ua theme = none →
      responsiveValue none ua theme
        = theme.global.deviceBreakpoints.lookup "tablet") := by
  refine ⟨?_, ?_, ?_⟩
  · intro s ua theme hs
    simp [responsiveValue, jsOrO, hs]
  · intro ua theme
    rfl
  · intro ua theme h
    simp [responsiveValue, jsOrO, h]

/-- Witness for C3 at a concrete set state: the state value wins over any
device inference. -/
theorem responsive_state_precedence_witness :
    responsiveValue (some "medium")
      (some "Mozilla/5.0 (iPad; CPU OS 12_2 like Mac OS X)") baseTheme
      = some "medium" :=
  responsive_state_precedence.1 "medium"
    (some "Mozilla/5.0 (iPad; CPU OS 12_2 like Mac OS X)") baseTheme (by decide)

/-- C10: the tablet regex carries the `/i` flag but the phone regex is case
sensitive — a non-empty user agent that matches no tablet signature and
contains none of `Mobile`, `iPhone`, `Android` with that exact casing is
classified as a computer (not a phone), even if it contains a lowercase
`mobile`. -/
theorem phone_signature_case_sensitive (ua : String) (theme : Theme)
    (hne : (ua == "") = false)
    (ht : tabletRegexTest ua = false)
    (hm : containsL ("Mobile".data) ua.data = false)
    (hi : containsL ("iPhone".data) ua.data = false)
    (ha : containsL ("Android".data) ua.data = false) :
    classify ua = some Device.computer
    ∧ classify ua ≠ some Device.phone
    ∧ deviceResponsive (some ua) theme = getDeviceBreakpoint "computer" theme := by
  have hp : phoneRegexTest ua = false := by
    simp [phoneRegexTest, hm, hi, ha]
  refine ⟨?_, ?_, ?_⟩
  · simp [classify, hne, ht, hp]
  · simp [classify, hne, ht, hp]
  · simp [deviceResponsive, hne, ht, hp]

/-- Witness for C10: a user agent with only a lowercase `mobile` token is
classified as a computer. -/
theorem phone_signature_case_sensitive_witness :
    classify "Mozilla/4.0 (compatible; opera mini mobile browser)"
      = some Device.computer
    ∧ deviceResponsive (some "Mozilla/4.0 (compatible; opera mini mobile browser)") baseTheme
      = getDeviceBreakpoint "computer" baseTheme := by
  have h := phone_signature_case_sensitive
    "Mozilla/4.0 (compatible; opera mini mobile browser)" baseTheme
    (by decide) (by decide) (by decide) (by decide) (by decide)
  exact ⟨h.1, h.2.2⟩

/-- C5: a defined result of the caller-supplied format function wins; an
undefined result, or an absent format function, falls back to the standard
template substitution against the deep-merged message table. -/
theorem message_format_precedence :
    (∀ (mp : MessagesProp) (f : FormatOptions → Option String)
       (opts : FormatOptions) (r : String),
      mp.format = some f → f opts = some r →
      composedFormat (some mp) opts = some r)
    ∧ (∀ (mp : MessagesProp) (f : FormatOptions → Option String)
         (opts : FormatOptions),
      mp.format = some f → f opts = none →
      composedFormat (some mp) opts = format opts (mergedMessages (some mp)))
    ∧ (∀ (mp : MessagesProp) (opts : FormatOptions),
      mp.format = none →
      composedFormat (some mp) opts = format opts (mergedMessages (some mp)))
    ∧ (∀ opts : FormatOptions,
      composedFormat none opts = format opts (mergedMessages none)) := by
  refine ⟨?_, ?_, ?_, ?_⟩
  · intro mp f opts r hf hr
    simp [composedFormat, hf, hr]
  · intro mp f opts hf hr
    simp [composedFormat, hf, hr]
  · intro mp opts hf
    simp [composedFormat, hf]
  · intro opts
    rfl

/-- Witness for C5: a format function defined at one id short-circuits there. -/
theorem message_format_precedence_witness :
    composedFormat
      (some ⟨none, some (fun opts => if opts.id == "custom" then some "X" else none)⟩)
      ⟨"custom", []⟩
      = some "X" :=
  message_format_precedence.1
    ⟨none, some (fun opts => if opts.id == "custom" then some "X" else none)⟩
    (fun opts => if opts.id == "custom" then some "X" else none)
    ⟨"custom", []⟩ "X" rfl (by decide)

/-- C9: when the `options` prop is absent the published value is the single
module-level constant object: the render selects the module constant without
allocating, so every render without the prop publishes the same identity. -/
theorem default_options_shared_reference (firstFree : Nat) :
    (renderOptions (initModule firstFree) none).2
      = (renderOptions ((renderOptions (initModule firstFree) none).1) none).2
    ∧ (renderOptions (initModule firstFree) none).1 = initModule firstFree
    ∧ (renderOptions (initModule firstFree) none).2
      = (initModule firstFree).defaultOptionsAddr :=
  ⟨rfl, rfl, rfl⟩

/-- Witness for C9 at a concrete module state. -/
theorem default_options_shared_reference_witness :
    (renderOptions (initModule 7) none).2
      = (renderOptions ((renderOptions (initModule 7) none).1) none).2 :=
  (default_options_shared_reference 7).1

/-- C7 counterexample: in a non-browser environment the resize-listener
registration and the width measurement are not guarded — both throw — so the
claim that no unguarded environment access is performed and no operation
throws fails (the containerTarget default itself is fine). -/
theorem unguarded_window_access_throws :
    registerResizeListener ⟨none, none⟩ = Except.error "window is not defined"
    ∧ measureBodyWidth ⟨none, none⟩ = Except.error "document is not defined"
    ∧ containerTargetDefault ⟨none, none⟩ = Except.ok none :=
  ⟨rfl, rfl, rfl⟩

/-- C7 amended: the containerTarget default is guarded by the `typeof` test
— it never throws and yields `undefined` without a document — but the
resize-listener registration and the width measurement access `window` /
`document` unguarded: they throw exactly when the respective global is
absent. -/
theorem environment_guard_status (env : Env) :
    (env.document = none → containerTargetDefault env = Except.ok none)
    ∧ (∃ v, containerTargetDefault env = Except.ok v)
    ∧ (env.window = none →
        registerResizeListener env = Except.error "window is not defined")
    ∧ (∀ w, env.window = some w → registerResizeListener env = Except.ok ())
    ∧ (env.document = none →
        measureBodyWidth env = Except.error "document is not defined") := by
  refine ⟨?_, ?_, ?_, ?_, ?_⟩
  · intro hd
    simp [containerTargetDefault, documentIsObject, hd]
  · cases hd : env.document with
    | none => exact ⟨none, by simp [containerTargetDefault, documentIsObject, hd]⟩
    | some d => exact ⟨some d.bodyId, by simp [containerTargetDefault, documentIsObject, hd]⟩
  · intro hw
    simp [registerResizeListener, hw]
  · intro w hw
    simp [registerResizeListener, hw]
  · intro hd
    simp [measureBodyWidth, hd]

/-- Witness for the C7 amended claim in a browser-less environment that still
has a window object. -/
theorem environment_guard_status_witness :
    containerTargetDefault ⟨none, some ⟨1⟩⟩ = Except.ok none
    ∧ registerResizeListener ⟨none, some ⟨1⟩⟩ = Except.ok () := by
  have h := environment_guard_status ⟨none, some ⟨1⟩⟩
  exact ⟨h.1 rfl, h.2.2.2.1 ⟨1⟩ rfl⟩

/-- C4: when the override supplies a (truthy) menu-drop alignment, the
composed theme's `menu.drop.align` is exactly the override's value — the
merged value is discarded, no fields of the base alignment survive. -/
theorem menu_drop_align_replaced (base : Theme) (tp : ThemeProp)
    (m : MenuProp) (d : MenuDropProp) (a : JVal)
    (bg : Option ColorSpec) (dir mode : Option String)
    (h1 : tp.menu = some m) (h2 : m.drop = some d) (h3 : d.align = some a)
    (h4 : jvalTruthy a = true) :
    (composeTheme base (some tp) bg dir mode).menu.drop.align = a := by
  rw [composeTheme_menu]
  simp [mergedTheme, applyMenuOverride, h1, h2, h3, h4]

/-- Witness for C4: an override alignment object fully replaces the base
alignment `top/left` object rather than merging into it. -/
theorem menu_drop_align_replaced_witness :
    (composeTheme baseTheme
        (some ⟨none, some ⟨some ⟨some (.obj [("bottom", .str "bottom")])⟩⟩, none⟩)
        none none none).menu.drop.align
      = JVal.obj [("bottom", .str "bottom")] :=
  menu_drop_align_replaced baseTheme
    ⟨none, some ⟨some ⟨some (.obj [("bottom", .str "bottom")])⟩⟩, none⟩
    ⟨some ⟨some (.obj [("bottom", .str "bottom")])⟩⟩
    ⟨some (.obj [("bottom", .str "bottom")])⟩
    (.obj [("bottom", .str "bottom")])
    none none none rfl rfl rfl rfl

/-- C8: the composed theme's `baseBackground` and `background` are equal to
each other and record the resolved effective background — the background
prop when supplied (truthy), else the merged theme's declared global
background color. -/
theorem background_fields_recorded (base : Theme) (tp : Option ThemeProp)
    (bg : Option ColorSpec) (dir mode : Option String) :
    ((composeTheme base tp bg dir mode).background
       = (composeTheme base tp bg dir mode).baseBackground)
    ∧ ((composeTheme base tp bg dir mode).baseBackground
       = jsOrColor bg (themeBackgroundOf (mergedTheme base tp)))
    ∧ (∀ c : ColorSpec, colorTruthy c = true → bg = some c →
        (composeTheme base tp bg dir mode).baseBackground = some c)
    ∧ (bg = none →
        (composeTheme base tp bg dir mode).baseBackground
          = themeBackgroundOf (mergedTheme base tp)) := by
  refine ⟨composeTheme_background base tp bg dir mode,
          composeTheme_baseBackground base tp bg dir mode, ?_, ?_⟩
  · intro c hc hbg
    rw [composeTheme_baseBackground, hbg]
    simp [jsOrColor, hc]
  · intro hbg
    rw [composeTheme_baseBackground, hbg]
    rfl

/-- Witness for C8 at a concrete supplied background. -/
theorem background_fields_recorded_witness :
    (composeTheme baseTheme none (some (.lit "#000000")) none none).baseBackground
      = some (ColorSpec.lit "#000000") :=
  (background_fields_recorded baseTheme none (some (.lit "#000000")) none none).2.2.1
    (.lit "#000000") (by decide) rfl

/-- C1: the mode prop only seeds a tentative dark flag — the final `dark` is
the luminance classification of the resolved background over the tentative
theme; with a supplied hex background that is not a color alias the result
is mode-independent; `#000000` yields `dark = true` for every mode, and with
mode `'dark'` and no background the base theme's default background yields
`dark = true`. -/
theorem dark_resolution_overrides_mode (base : Theme) (tp : Option ThemeProp)
    (bg : ColorSpec) (dir mode : Option String)
    (hbg : colorTruthy bg = true) :
    ((composeTheme base tp (some bg) dir mode).dark
       = backgroundIsDark (normalizeColorOpt (some bg) (tentativeTheme base tp mode))
           (tentativeTheme base tp mode))
    ∧ (∀ (s : String) (r g bl : Nat) (mode2 : Option String),
        parseHex6 s = some (r, g, bl) →
        (mergedTheme base tp).global.colors.lookup s = none →
        (composeTheme base tp (some (.lit s)) dir mode2).dark = luminanceDark r g bl)
    ∧ (∀ mode2 : Option String,
        (composeTheme baseTheme none (some (.lit "#000000")) dir mode2).dark = true)
    ∧ ((composeTheme baseTheme none none dir (some "dark")).dark = true) := by
  refine ⟨?_, ?_, ?_, ?_⟩
  · rw [composeTheme_dark]
    simp [resolvedBackgroundColor, jsOrColor, hbg]
  · intro s r g bl mode2 hp hl
    rw [composeTheme_dark]
    have hs : (s != "") = true := by
      simp [bne, parseHex6_nonempty hp]
    have hcols : (tentativeTheme base tp mode2).global.colors
        = (mergedTheme base tp).global.colors := rfl
    simp [resolvedBackgroundColor, jsOrColor, colorTruthy, hs,
      normalizeColorOpt, normalizeColor, hcols, hl, backgroundIsDark, hp]
  · intro mode2
    rw [composeTheme_dark]
    simp [resolvedBackgroundColor, jsOrColor, colorTruthy, normalizeColorOpt,
      normalizeColor, mergedTheme, deepMergeTheme, applyMenuOverride,
      tentativeTheme, setDark, baseTheme, backgroundIsDark, parseHex6,
      hexDigitVal, luminanceDark, List.lookup]
  · rw [composeTheme_dark]
    simp [resolvedBackgroundColor, jsOrColor, themeBackgroundOf, mergedTheme,
      deepMergeTheme, applyMenuOverride, tentativeTheme, setDark, jsOrStr,
      baseTheme, normalizeColorOpt, normalizeColor, backgroundIsDark,
      parseHex6, hexDigitVal, luminanceDark, List.lookup]

/-- Witness for C1: `#000000` as background yields a dark theme even with
mode `'light'`. -/
theorem dark_resolution_overrides_mode_witness :
    (composeTheme baseTheme none (some (.lit "#000000")) none (some "light")).dark
      = true :=
  (dark_resolution_overrides_mode baseTheme none (.lit "#000000") none
    (some "light") (by decide)).2.2.1 (some "light")

/-! ## Store lemmas for the mutation claim -/

/-- Appending a node leaves existing addresses unchanged. -/
theorem heap_get_append_lt (ns : List HNode) (x : HNode) (i : Nat)
    (hi : i < ns.length) : Heap.get ⟨ns ++ [x]⟩ i = Heap.get ⟨ns⟩ i := by
  simp [Heap.get, List.getD, List.getElem?_append_left hi]

/-- The appended node lives at the old length. -/
theorem heap_get_append_self (ns : List HNode) (x : HNode) :
    Heap.get ⟨ns ++ [x]⟩ ns.length = x := by
  simp [Heap.get, List.getD, List.getElem?_append_right (Nat.le_refl ns.length)]

/-- Reading beyond the store yields the empty node. -/
theorem heap_get_default (h : Heap) (i : Nat) (hi : h.size ≤ i) :
    h.get i = [] :=
  List.getD_eq_default _ _ hi

/-- Overwriting one node leaves the others unchanged. -/
theorem heap_get_set_ne (h : Heap) (a : Addr) (n : HNode) (i : Nat)
    (hne : i ≠ a) : (h.set a n).get i = h.get i := by
  simp [Heap.set, Heap.get, List.getD, List.getElem?_set_ne (Ne.symm hne)]

/-- A field update only touches its own node. -/
theorem setFieldH_frame (h : Heap) (a : Addr) (k : String) (v : HVal)
    (i : Nat) (hne : i ≠ a) : (setFieldH h a k v).get i = h.get i :=
  heap_get_set_ne h a _ i hne

/-- The region at and above the store's size is vacuously fresh. -/
theorem regionFresh_self (h : Heap) : regionFresh h.size h := by
  intro i hi kv hkv
  rw [heap_get_default h i hi] at hkv
  cases hkv

/-- A successful lookup result is a member value. -/
theorem lookup_mem {α : Type} {l : List (String × α)} {k : String} {v : α}
    (h : l.lookup k = some v) : ∃ k2, (k2, v) ∈ l := by
  induction l with
  | nil => cases h
  | cons kv rest ih =>
    by_cases he : (k == kv.1) = true
    · refine ⟨kv.1, ?_⟩
      have : kv.2 = v := by
        simp [List.lookup, he] at h
        exact h
      rw [← this]
      exact List.mem_cons_self _ _
    · have h2 : rest.lookup k = some v := by
        simpa [List.lookup, he] using h
      obtain ⟨k3, hm⟩ := ih h2
      exact ⟨k3, List.mem_cons_of_mem _ hm⟩

/-- Navigating one reference inside a fresh region stays inside it. -/
theorem getFieldH_fresh {lo : Nat} {h : Heap} (hre : regionFresh lo h)
    {a : Addr} (ha : lo ≤ a) {k : String} {b : Addr}
    (hf : getFieldH h a k = some (HVal.ref b)) : lo ≤ b := by
  obtain ⟨k2, hm⟩ := lookup_mem hf
  exact hre a ha _ hm b rfl

/-- Allocation appends: it preserves every existing address, keeps the fresh
region self-contained, and returns values pointing only into the fresh
region (joint statement for `allocTree` and `allocFields`, by strong
induction on the size of the tree). -/
theorem alloc_spec (n : Nat) :
    (∀ (t : HTree) (h : Heap) (lo : Nat), sizeOf t ≤ n → lo ≤ h.size → regionFresh lo h →
      h.size ≤ (allocTree h t).1.size
      ∧ (∀ i, i < h.size → (allocTree h t).1.get i = h.get i)
      ∧ regionFresh lo (allocTree h t).1
      ∧ valFresh lo (allocTree h t).2)
    ∧ (∀ (fs : List (String × HTree)) (h : Heap) (lo : Nat),
      sizeOf fs ≤ n → lo ≤ h.size → regionFresh lo h →
      h.size ≤ (allocFields h fs).1.size
      ∧ (∀ i, i < h.size → (allocFields h fs).1.get i = h.get i)
      ∧ regionFresh lo (allocFields h fs).1
      ∧ nodeFresh lo (allocFields h fs).2) := by
  induction n using Nat.strong_induction_on with
  | _ n ih =>
    constructor
    · intro t h lo hn hlo hre
      cases t with
      | prim s =>
        have he : allocTree h (HTree.prim s) = (h, HVal.prim s) := by
          simp [allocTree]
        rw [he]
        exact ⟨le_rfl, fun i _ => rfl, hre, fun a ha => by cases ha⟩
      | undef =>
        have he : allocTree h HTree.undef = (h, HVal.undef) := by
          simp [allocTree]
        rw [he]
        exact ⟨le_rfl, fun i _ => rfl, hre, fun a ha => by cases ha⟩
      | node fs =>
        have hlt : sizeOf fs < n := by
          have hs : sizeOf (HTree.node fs) = 1 + sizeOf fs := by simp
          omega
        obtain ⟨hsz, hpres, hreg, hfresh⟩ :=
          (ih (sizeOf fs) hlt).2 fs h lo le_rfl hlo hre
        have he : allocTree h (HTree.node fs)
            = (⟨(allocFields h fs).1.nodes ++ [(allocFields h fs).2]⟩,
               HVal.ref (allocFields h fs).1.nodes.length) := by
          simp [allocTree]
        rw [he]
        have hsz' : h.nodes.length ≤ (allocFields h fs).1.nodes.length := hsz
        have hlo' : lo ≤ h.nodes.length := hlo
        refine ⟨?_, ?_, ?_, ?_⟩
        · show h.nodes.length ≤ ((allocFields h fs).1.nodes ++ [(allocFields h fs).2]).length
          simp only [List.length_append, List.length_cons, List.length_nil]
          omega
        · intro i hi
          have hi' : i < h.nodes.length := hi
          have hi2 : i < (allocFields h fs).1.nodes.length := by omega
          rw [heap_get_append_lt _ _ _ hi2]
          exact hpres i hi
        · intro i hi2
          rcases lt_trichotomy i (allocFields h fs).1.nodes.length with hc | hc | hc
          · rw [heap_get_append_lt _ _ _ hc]
            exact hreg i hi2
          · rw [hc, heap_get_append_self]
            exact hfresh
          · have hdef : (⟨(allocFields h fs).1.nodes ++ [(allocFields h fs).2]⟩ : Heap).get i = [] := by
              apply heap_get_default
              show ((allocFields h fs).1.nodes ++ [(allocFields h fs).2]).length ≤ i
              simp only [List.length_append, List.length_cons, List.length_nil]
              omega
            rw [hdef]
            intro kv hkv
            cases hkv
        · intro a2 ha2
          cases ha2
          omega
    · intro fs h lo hn hlo hre
      cases fs with
      | nil =>
        have he : allocFields h ([] : List (String × HTree)) = (h, []) := by
          simp [allocFields]
        rw [he]
        refine ⟨le_rfl, fun i _ => rfl, hre, ?_⟩
        intro kv hkv
        cases hkv
      | cons kt rest =>
        have hlt1 : sizeOf kt.2 < n := by
          have h1 : sizeOf (kt :: rest) = 1 + sizeOf kt + sizeOf rest := by simp
          have h2 : sizeOf kt = 1 + sizeOf kt.1 + sizeOf kt.2 := by
            cases kt
            simp
          omega
        have hlt2 : sizeOf rest < n := by
          have h1 : sizeOf (kt :: rest) = 1 + sizeOf kt + sizeOf rest := by simp
          omega
        obtain ⟨hsz1, hpres1, hreg1, hfresh1⟩ :=
          (ih (sizeOf kt.2) hlt1).1 kt.2 h lo le_rfl hlo hre
        obtain ⟨hsz2, hpres2, hreg2, hfresh2⟩ :=
          (ih (sizeOf rest) hlt2).2 rest (allocTree h kt.2).1 lo le_rfl
            (le_trans hlo hsz1) hreg1
        have he : allocFields h (kt :: rest)
            = ((allocFields (allocTree h kt.2).1 rest).1,
               (kt.1, (allocTree h kt.2).2) :: (allocFields (allocTree h kt.2).1 rest).2) := by
          cases kt
          simp [allocFields]
        rw [he]
        refine ⟨le_trans hsz1 hsz2, ?_, hreg2, ?_⟩
        · intro i hi
          rw [hpres2 i (lt_of_lt_of_le hi hsz1)]
          exact hpres1 i hi
        · intro kv hkv
          rcases List.mem_cons.mp hkv with hkv1 | hkv2
          · rw [hkv1]
            exact hfresh1
          · exact hfresh2 kv hkv2

/-- The store-level deep merge preserves every existing address, returns a
root in the fresh region, and keeps the fresh region self-contained. -/
theorem deepMergeH_spec (h : Heap) (b o : Addr) :
    (∀ i, i < h.size → (deepMergeH h b o).1.get i = h.get i)
    ∧ h.size ≤ (deepMergeH h b o).2
    ∧ regionFresh h.size (deepMergeH h b o).1 := by
  obtain ⟨hsz, hpres, hreg, hfresh⟩ :=
    (alloc_spec (sizeOf (applyOverridesH (readNodeTrees h b) (readNodeTrees h o)))).2
      (applyOverridesH (readNodeTrees h b) (readNodeTrees h o)) h h.size le_rfl le_rfl
      (regionFresh_self h)
  have he : deepMergeH h b o
      = (⟨(allocFields h (applyOverridesH (readNodeTrees h b) (readNodeTrees h o))).1.nodes
            ++ [(allocFields h (applyOverridesH (readNodeTrees h b) (readNodeTrees h o))).2]⟩,
         (allocFields h (applyOverridesH (readNodeTrees h b) (readNodeTrees h o))).1.size) := by
    simp [deepMergeH]
  rw [he]
  have hsz' : h.nodes.length
      ≤ (allocFields h (applyOverridesH (readNodeTrees h b) (readNodeTrees h o))).1.nodes.length :=
    hsz
  refine ⟨?_, hsz, ?_⟩
  · intro i hi
    have hi' : i < h.nodes.length := hi
    have hi2 : i
        < (allocFields h (applyOverridesH (readNodeTrees h b) (readNodeTrees h o))).1.nodes.length := by
      omega
    rw [heap_get_append_lt _ _ _ hi2]
    exact hpres i hi
  · intro i hi2
    rcases lt_trichotomy i
        (allocFields h (applyOverridesH (readNodeTrees h b) (readNodeTrees h o))).1.nodes.length
      with hc | hc | hc
    · rw [heap_get_append_lt _ _ _ hc]
      exact hreg i hi2
    · rw [hc, heap_get_append_self]
      exact hfresh
    · have hdef : (⟨(allocFields h (applyOverridesH (readNodeTrees h b) (readNodeTrees h o))).1.nodes
            ++ [(allocFields h (applyOverridesH (readNodeTrees h b) (readNodeTrees h o))).2]⟩ : Heap).get i
          = [] := by
        apply heap_get_default
        show ((allocFields h (applyOverridesH (readNodeTrees h b) (readNodeTrees h o))).1.nodes
            ++ [(allocFields h (applyOverridesH (readNodeTrees h b) (readNodeTrees h o))).2]).length ≤ i
        simp only [List.length_append, List.length_cons, List.length_nil]
        omega
      rw [hdef]
      intro kv hkv
      cases hkv

/-- The menu-align special case writes only inside the fresh region: with a
fresh merged root in a self-contained fresh region, every address below the
region is untouched. -/
theorem applyAlignH_frame (h : Heap) (r o : Addr) (lo : Nat)
    (hr : lo ≤ r) (hre : regionFresh lo h) (i : Nat) (hi : i < lo) :
    (applyAlignH h r o).get i = h.get i := by
  cases hov : overrideAlignH h o with
  | none =>
    have he : applyAlignH h r o = h := by
      simp [applyAlignH, hov]
    rw [he]
  | some av =>
    cases hm : getFieldH h r "menu" with
    | none =>
      have he : applyAlignH h r o = h := by
        simp [applyAlignH, hov, hm]
      rw [he]
    | some v =>
      cases v with
      | prim s =>
        have he : applyAlignH h r o = h := by
          simp [applyAlignH, hov, hm]
        rw [he]
      | undef =>
        have he : applyAlignH h r o = h := by
          simp [applyAlignH, hov, hm]
        rw [he]
      | ref m =>
        have hm2 : lo ≤ m := getFieldH_fresh hre hr hm
        cases hd : getFieldH h m "drop" with
        | none =>
          have he : applyAlignH h r o = h := by
            simp [applyAlignH, hov, hm, hd]
          rw [he]
        | some v2 =>
          cases v2 with
          | prim s =>
            have he : applyAlignH h r o = h := by
              simp [applyAlignH, hov, hm, hd]
            rw [he]
          | undef =>
            have he : applyAlignH h r o = h := by
              simp [applyAlignH, hov, hm, hd]
            rw [he]
          | ref d =>
            have hd2 : lo ≤ d := getFieldH_fresh hre hm2 hd
            have he : applyAlignH h r o = setFieldH h d "align" av := by
              simp [applyAlignH, hov, hm, hd]
            rw [he]
            exact setFieldH_frame h d "align" av i (by omega)

/-- C6: theme composition never mutates its inputs — the deep merge
allocates only fresh nodes and every later in-place step writes inside the
fresh region, so every pre-existing store address (in particular every node
of the base theme and of the override) is unchanged by the composition. -/
theorem compose_theme_preserves_inputs (h : Heap) (baseA overA : Addr)
    (bg dir mode : Option String) (i : Nat) (hi : i < h.size) :
    (composeThemeH h baseA overA bg dir mode).1.get i = h.get i := by
  obtain ⟨hpres, hr, hreg⟩ := deepMergeH_spec h baseA overA
  have hir : i ≠ (deepMergeH h baseA overA).2 := by omega
  have halign : ∀ j, j < h.size →
      (applyAlignH (deepMergeH h baseA overA).1 (deepMergeH h baseA overA).2 overA).get j
        = h.get j := by
    intro j hj
    rw [applyAlignH_frame (deepMergeH h baseA overA).1 (deepMergeH h baseA overA).2 overA
      h.size hr hreg j hj]
    exact hpres j hj
  simp only [composeThemeH]
  cases dir with
  | none =>
    rw [setFieldH_frame _ _ _ _ i hir, setFieldH_frame _ _ _ _ i hir,
      setFieldH_frame _ _ _ _ i hir, setFieldH_frame _ _ _ _ i hir]
    exact halign i hi
  | some ds =>
    by_cases hds : (ds == "") = true
    · simp only [hds, if_true]
      rw [setFieldH_frame _ _ _ _ i hir, setFieldH_frame _ _ _ _ i hir,
        setFieldH_frame _ _ _ _ i hir, setFieldH_frame _ _ _ _ i hir]
      exact halign i hi
    · simp only [hds, Bool.false_eq_true, if_false]
      rw [setFieldH_frame _ _ _ _ i hir, setFieldH_frame _ _ _ _ i hir,
        setFieldH_frame _ _ _ _ i hir, setFieldH_frame _ _ _ _ i hir,
        setFieldH_frame _ _ _ _ i hir]
      exact halign i hi

/-- Witness for C6: a concrete store with a base theme node and an override
carrying a `menu.drop.align` object; the base node is unchanged by the
composition. -/
theorem compose_theme_preserves_inputs_witness :
    (composeThemeH
        ⟨[[("defaultMode", HVal.prim "light")],
          [("menu", HVal.ref 2)],
          [("drop", HVal.ref 3)],
          [("align", HVal.prim "center")]]⟩
        0 1 (some "#000000") (some "rtl") (some "dark")).1.get 0
      = [("defaultMode", HVal.prim "light")] := by
  rw [compose_theme_preserves_inputs _ 0 1 (some "#000000") (some "rtl") (some "dark") 0
    (by decide)]
  rfl

end GrommetSpec
